import Mathlib

/-!
# Kundeportal Google embed: review, schema and opening-hours scripts

A shallow embedding of `loadGoogleData` (with `generateSchema`, `displayReviews`,
`displayOpeningHours`) and of the stand-alone `loadGoogleReviews`, together with the
properties established about them.

Conventions of the embedding.

* A JavaScript string is the list of its UTF-16 code units (`JSString`).
* A thrown exception is the `Except.error` result.
* The fetched payload is an argument: the functions are modelled from the point where the
  response has been parsed.
* Writes to the page are returned as values (the schema record, the review rendering, the
  rows of the opening-hours list).
* A rating is an exact rational number.
-/

set_option autoImplicit false

namespace Kundeportal

/-! ## Strings -/

/-- A JavaScript string, as the list of its UTF-16 code units. -/
abbrev JSString := List Nat

/-- The UTF-16 code units of one character. -/
def utf16Char (c : Char) : List Nat :=
  if c.toNat < 65536 then [c.toNat]
  else [55296 + (c.toNat - 65536) / 1024, 56320 + (c.toNat - 65536) % 1024]

/-- The UTF-16 code units of a text literal. -/
def utf16 (s : String) : JSString :=
  (s.toList.map utf16Char).flatten

/-- The case mappings of the JavaScript runtime (`String.prototype.toUpperCase` and
`String.prototype.toLowerCase`), which depend on the Unicode tables of the host. -/
structure CaseMap where
  toUpperCase : JSString → JSString
  toLowerCase : JSString → JSString

/-- Upper-case one code unit in the ASCII range. -/
def asciiUpperUnit (c : Nat) : Nat :=
  if 97 ≤ c ∧ c ≤ 122 then c - 32 else c

/-- Lower-case one code unit in the ASCII range. -/
def asciiLowerUnit (c : Nat) : Nat :=
  if 65 ≤ c ∧ c ≤ 90 then c + 32 else c

/-- The case mappings on strings of ASCII code units, where they agree with the runtime;
code units outside the ASCII letters are left as they are. -/
def asciiCase : CaseMap where
  toUpperCase := fun s => s.map asciiUpperUnit
  toLowerCase := fun s => s.map asciiLowerUnit

/-- The code units that `String.prototype.trim` strips: ECMAScript WhiteSpace and
LineTerminator. -/
def isWhiteSpace (c : Nat) : Bool :=
  c = 9 || c = 10 || c = 11 || c = 12 || c = 13 || c = 32 || c = 160 || c = 5760
    || (8192 ≤ c && c ≤ 8202) || c = 8232 || c = 8233 || c = 8239 || c = 8287
    || c = 12288 || c = 65279

/-- The method `String.prototype.trim`. -/
def trim (s : JSString) : JSString :=
  ((s.dropWhile isWhiteSpace).reverse.dropWhile isWhiteSpace).reverse

/-- Worker of `split`: `skip` counts the code units of a matched separator that are still
to be passed over. -/
def splitGo (sep : JSString) : Nat → JSString → List JSString
  | _, [] => [[]]
  | skip + 1, _ :: rest => splitGo sep skip rest
  | 0, c :: rest =>
    if sep.isPrefixOf (c :: rest) then [] :: splitGo sep (sep.length - 1) rest
    else
      match splitGo sep 0 rest with
      | [] => [[c]]
      | seg :: segs => (c :: seg) :: segs

/-- The method `String.prototype.split` with a string separator and no limit. -/
def split (sep s : JSString) : List JSString :=
  if sep = [] then s.map fun c => [c] else splitGo sep 0 s

/-- The en dash. -/
def enDash : Nat := 8211

/-- The em dash. -/
def emDash : Nat := 8212

/-- The call `s.replace(/–|—/g, ' - ')`: every en dash and every em dash becomes
space, hyphen, space. -/
def replaceDashes (s : JSString) : JSString :=
  (s.map fun c => if c = enDash ∨ c = emDash then [32, 45, 32] else [c]).flatten

/-- JavaScript truthiness of a possibly absent string: present and not empty. -/
def truthy : Option JSString → Bool
  | none => false
  | some [] => false
  | some (_ :: _) => true

/-! ## The payload and the configuration -/

/-- One review of the payload. -/
structure Review where
  author_name : Option JSString
  profile_photo_url : Option JSString
deriving DecidableEq

/-- The `opening_hours` object of the payload. -/
structure OpeningHours where
  weekday_text : Option (List JSString)
deriving DecidableEq

/-- The parsed response of `getPlaceDetails`. -/
structure PlaceDetails where
  rating : Option ℚ
  user_ratings_total : Option ℚ
  reviews : Option (List Review)
  opening_hours : Option OpeningHours
deriving DecidableEq

/-- The `schemaFields` option: the custom fields of the schema markup. -/
structure SchemaFields where
  type : Option JSString
  name : Option JSString
  url : Option JSString
  address : Option JSString
  telephone : Option JSString
  priceRange : Option JSString
deriving DecidableEq

/-- An exception thrown by the script. -/
inductive JSError where
  | typeError (msg : String)
deriving DecidableEq

deriving instance DecidableEq for Except

/-! ## generateSchema -/

/-- One element of the `openingHoursSpecification` array. -/
structure OpeningHoursSpecification where
  type : JSString
  dayOfWeek : JSString
  opens : JSString
  closes : JSString
deriving DecidableEq

/-- A value of the schema record. -/
inductive SchemaValue where
  | text (s : JSString)
  | aggregateRating (type : JSString) (ratingValue reviewCount : ℚ)
  | hours (entries : List OpeningHoursSpecification)
deriving DecidableEq

/-- The schema record `schemaMarkup`: its keys, in insertion order, with their values. -/
abbrev SchemaRecord := List (String × SchemaValue)

/-- The closed marker that `generateSchema` compares the hours text with. -/
def closedToken : JSString := utf16 "stengt"

/-- The expression `x || 0` on a possibly absent number. -/
def orZero : Option ℚ → ℚ
  | none => 0
  | some q => if q = 0 then 0 else q

/-- The body of the `forEach` callback of `generateSchema` on one line of `weekday_text`:
`none` when the line pushes nothing, `some e` when it pushes `e`, an error when it throws. -/
def hoursEntry (cm : CaseMap) (oh : JSString) :
    Except JSError (Option OpeningHoursSpecification) :=
  let parts := split (utf16 ": ") oh
  match parts[0]? with
  | none => .error (.typeError "Cannot read properties of undefined (reading charAt)")
  | some p0 =>
    let dayOfWeek := cm.toUpperCase (p0.take 1) ++ p0.drop 1
    if truthy parts[1]? ∧ cm.toLowerCase (parts[1]?.getD []) ≠ closedToken then
      let times := replaceDashes (parts[1]?.getD [])
      let pieces := split (utf16 " - ") times
      match pieces[0]?, pieces[1]? with
      | none, _ => .error (.typeError "Cannot read properties of undefined (reading trim)")
      | some _, none => .error (.typeError "Cannot read properties of undefined (reading trim)")
      | some openTime, some closeTime =>
        .ok (some
          { type := utf16 "OpeningHoursSpecification"
            dayOfWeek := dayOfWeek
            opens := trim openTime
            closes := trim closeTime })
    else .ok none

/-- The `forEach` loop of `generateSchema` over `weekday_text`, pushing onto `acc`. -/
def hoursLoop (cm : CaseMap) :
    List JSString → List OpeningHoursSpecification →
      Except JSError (List OpeningHoursSpecification)
  | [], acc => .ok acc
  | oh :: rest, acc =>
    match hoursEntry cm oh with
    | .error e => .error e
    | .ok none => hoursLoop cm rest acc
    | .ok (some entry) => hoursLoop cm rest (acc ++ [entry])

/-- The array `openingHoursSpecification` that `generateSchema` builds from the payload. -/
def buildOpeningHours (cm : CaseMap) (data : PlaceDetails) :
    Except JSError (List OpeningHoursSpecification) :=
  match data.opening_hours with
  | none => .ok []
  | some oh =>
    match oh.weekday_text with
    | none => .ok []
    | some lines => hoursLoop cm lines []

/-- The spread `...(v && \x7b key: v \x7d)` of an optional string field. -/
def spreadField (key : String) (v : Option JSString) : SchemaRecord :=
  if truthy v then [(key, .text (v.getD []))] else []

/-- The object literal `schemaMarkup` of `generateSchema`. -/
def schemaMarkup (data : PlaceDetails) (fields : SchemaFields)
    (openingHoursSpecification : List OpeningHoursSpecification) : SchemaRecord :=
  [("@context", .text (utf16 "https://schema.org")),
   ("@type", .text (if truthy fields.type then fields.type.getD [] else utf16 "Dentist"))]
  ++ spreadField "name" fields.name
  ++ spreadField "url" fields.url
  ++ spreadField "address" fields.address
  ++ spreadField "telephone" fields.telephone
  ++ spreadField "priceRange" fields.priceRange
  ++ [("aggregateRating",
        .aggregateRating (utf16 "AggregateRating") (orZero data.rating)
          (orZero data.user_ratings_total))]
  ++ (if openingHoursSpecification.length ≠ 0
      then [("openingHoursSpecification", .hours openingHoursSpecification)] else [])

/-- The function `generateSchema`: the record it serialises into the page, or the exception
it throws. -/
def generateSchema (cm : CaseMap) (data : PlaceDetails) (fields : SchemaFields) :
    Except JSError SchemaRecord :=
  match buildOpeningHours cm data with
  | .error e => .error e
  | .ok openingHoursSpecification => .ok (schemaMarkup data fields openingHoursSpecification)

/-! ## Numbers as text -/

/-- Worker of `natToString`: the decimal digits of `n`, most significant first, as code
units; `fuel` bounds the number of digits. -/
def digitsAux : Nat → Nat → List Nat
  | 0, _ => []
  | fuel + 1, n => if n < 10 then [48 + n] else digitsAux fuel (n / 10) ++ [48 + n % 10]

/-- The decimal representation of a natural number. -/
def natToString (n : Nat) : JSString := digitsAux (n + 1) n

/-- Drop the zeros at the end of a digit string. -/
def stripTrailingZeros (ds : List Nat) : List Nat :=
  (ds.reverse.dropWhile fun d => d = 48).reverse

/-- The operation `Number::toString` (radix 10) on a non-negative integral value `v`, read
on exact values: plain decimal digits below `10^21`, and from `10^21` on the exponent
notation `d.ddde+N` over the significant digits of `v`. -/
def naturalToString (v : Nat) : JSString :=
  if v < 10 ^ 21 then natToString v
  else
    match stripTrailingZeros (natToString v) with
    | [] => []
    | [d] => d :: (utf16 "e+" ++ natToString ((natToString v).length - 1))
    | d :: more => d :: 46 :: (more ++ utf16 "e+" ++ natToString ((natToString v).length - 1))

/-- The operation `Number::toString` (radix 10) on an integral value. -/
def integerToString (z : ℤ) : JSString :=
  if z < 0 then 45 :: naturalToString z.natAbs else naturalToString z.natAbs

/-- The method `Number.prototype.toFixed` with one fraction digit, on a non-negative value:
`n` is the integer nearest to `x * 10`, the larger one on a tie, and the result is the
decimal digits of `n` with a point before the last one. From `10^21` on the method returns
`ToString(x)`; a Number of that size is integral, and the integral part is rendered. -/
def toFixedOneNonneg (x : ℚ) : JSString :=
  if (10 : ℚ) ^ 21 ≤ x then naturalToString ⌊x⌋.toNat
  else
    let n := ⌊x * 10 + 1 / 2⌋.toNat
    let m := natToString n
    let m := if m.length ≤ 1 then List.replicate (2 - m.length) 48 ++ m else m
    m.take (m.length - 1) ++ 46 :: m.drop (m.length - 1)

/-- The call `x.toFixed(1)`. -/
def toFixedOne (x : ℚ) : JSString :=
  if x < 0 then 45 :: toFixedOneNonneg (-x) else toFixedOneNonneg x

/-- The predicate `Number.isInteger`. -/
def isInteger (x : ℚ) : Bool := x.den = 1

/-! ## displayReviews and loadGoogleReviews -/

/-- The selector map of the review rendering. -/
structure ReviewSelectors where
  starsBar : Option JSString
  score : Option JSString
  textWrapper : Option JSString
  reviewsLink : Option JSString
  placeId : Option JSString
  profilePhoto : Option (Nat → JSString)

/-- The write `profilePhotoElement.innerHTML = ...` on the elements matching `selector`. -/
structure PhotoInstruction where
  selector : JSString
  innerHTML : JSString
deriving DecidableEq

/-- The writes of the review rendering: the width of the star bars, the text of the score
elements, the link of the text wrappers, and the photo writes, each with the selector of
the elements it goes to. -/
structure ReviewRendering where
  starsBarSelector : JSString
  starsBarWidth : ℚ
  scoreSelector : JSString
  scoreText : JSString
  textWrapperSelector : JSString
  href : JSString
  target : JSString
  photos : List PhotoInstruction
deriving DecidableEq

/-- What a function has written to the page, and the exception that ended it, if any. -/
structure Outcome (σ : Type) where
  page : σ
  thrown : Option JSError
deriving DecidableEq

/-- The expression `sel || fallback` on a possibly absent selector. -/
def orDefault (sel : Option JSString) (fallback : JSString) : JSString :=
  if truthy sel then sel.getD [] else fallback

/-- The conversion of a possibly absent string inside a template literal. -/
def templateString : Option JSString → JSString
  | none => utf16 "undefined"
  | some s => s

/-- The star-bar percentage `(averageScore / 5) * 100`. -/
def starsPercentage (averageScore : ℚ) : ℚ := averageScore / 5 * 100

/-- The score text
`Number.isInteger(averageScore) ? averageScore : averageScore.toFixed(1)`, as a string. -/
def scoreText (averageScore : ℚ) : JSString :=
  if isInteger averageScore then integerToString averageScore.num else toFixedOne averageScore

/-- The array `photos`: the reviews with a truthy `profile_photo_url`, cut to three; nothing
when `data.reviews` is absent. -/
def photos (data : PlaceDetails) : List Review :=
  match data.reviews with
  | none => []
  | some reviews => (reviews.filter fun review => truthy review.profile_photo_url).take 3

/-- The markup written into a photo slot. -/
def photoMarkup (review : Review) : JSString :=
  utf16 "<img src=\"" ++ templateString review.profile_photo_url
    ++ utf16 "\" alt=\"Profile photo of " ++ templateString review.author_name
    ++ utf16 "\" />"

/-- The loop `photos.forEach((review, index) => ...)`, from index `index` on: the photo
writes done, and the exception of the call `selectors.profilePhoto(index + 1)` when
`profilePhoto` is not a function. -/
def photoLoop (selectors : ReviewSelectors) :
    List Review → Nat → Outcome (List PhotoInstruction)
  | [], _ => ⟨[], none⟩
  | review :: rest, index =>
    match selectors.profilePhoto with
    | none => ⟨[], some (.typeError "selectors.profilePhoto is not a function")⟩
    | some profilePhoto =>
      let later := photoLoop selectors rest (index + 1)
      ⟨⟨profilePhoto (index + 1), photoMarkup review⟩ :: later.page, later.thrown⟩

/-- The Google Maps search link for a place id. -/
def mapsLink (placeId : Option JSString) : JSString :=
  utf16 "https://www.google.com/maps/search/?api=1&query=Google&query_place_id="
    ++ templateString placeId

/-- The function `displayReviews` of the combined script. -/
def displayReviews (data : PlaceDetails) (selectors : ReviewSelectors) :
    Outcome ReviewRendering :=
  let averageScore := orZero data.rating
  let reviewsLink :=
    if truthy selectors.reviewsLink then selectors.reviewsLink.getD []
    else mapsLink selectors.placeId
  let loop := photoLoop selectors (photos data) 0
  { page :=
      { starsBarSelector := orDefault selectors.starsBar (utf16 "[hero-reviews=\"stars-bar\"]")
        starsBarWidth := starsPercentage averageScore
        scoreSelector := orDefault selectors.score (utf16 "[hero-reviews=\"score\"]")
        scoreText := scoreText averageScore
        textWrapperSelector :=
          orDefault selectors.textWrapper (utf16 "[hero-reviews=\"text-wrapper\"]")
        href := reviewsLink
        target := utf16 "_blank"
        photos := loop.page }
    thrown := loop.thrown }

/-- The `then` callback of the stand-alone `loadGoogleReviews(placeId, selectors)`, on the
fetched payload `data`. -/
def loadGoogleReviews (placeId : JSString) (selectors : ReviewSelectors)
    (data : PlaceDetails) : Outcome ReviewRendering :=
  let averageScore := orZero data.rating
  let reviewsLink := mapsLink (some placeId)
  let loop := photoLoop selectors (photos data) 0
  { page :=
      { starsBarSelector := orDefault selectors.starsBar (utf16 "[hero-reviews=\"stars-bar\"]")
        starsBarWidth := starsPercentage averageScore
        scoreSelector := orDefault selectors.score (utf16 "[hero-reviews=\"score\"]")
        scoreText := scoreText averageScore
        textWrapperSelector :=
          orDefault selectors.textWrapper (utf16 "[hero-reviews=\"text-wrapper\"]")
        href := reviewsLink
        target := utf16 "_blank"
        photos := loop.page }
    thrown := loop.thrown }

/-! ## displayOpeningHours -/

/-- The selector map of the opening-hours rendering. -/
structure HoursSelectors where
  list : Option JSString
  item : Option JSString
  day : Option JSString
  time : Option JSString

/-- What the script can observe of the document: whether `document.querySelector` finds an
element for a selector, and whether `querySelector` on a clone of the item template does. -/
structure Page where
  hasElement : JSString → Bool
  itemHasElement : JSString → Bool

/-- One clone appended to the opening-hours list. -/
structure HoursRow where
  day : JSString
  time : JSString
  borderBottomTransparent : Bool
deriving DecidableEq

/-- The writes of the opening-hours rendering: whether the list was emptied, and the rows
appended to it. -/
structure HoursRendering where
  cleared : Bool
  rows : List HoursRow
deriving DecidableEq

/-- The `forEach` loop of `displayOpeningHours`, from index `index` on, over a list of
`total` lines. -/
def hoursRowLoop (cm : CaseMap) (page : Page) (selectors : HoursSelectors) (total : Nat) :
    List JSString → Nat → Outcome (List HoursRow)
  | [], _ => ⟨[], none⟩
  | oh :: rest, index =>
    let parts := split (utf16 ": ") oh
    match parts[0]? with
    | none => ⟨[], some (.typeError "Cannot read properties of undefined (reading charAt)")⟩
    | some p0 =>
      let dayOfWeek := cm.toUpperCase (p0.take 1) ++ p0.drop 1
      let times :=
        if truthy (parts[1]?.map replaceDashes) then replaceDashes (parts[1]?.getD [])
        else utf16 "Stengt"
      if !page.itemHasElement (orDefault selectors.day (utf16 "[opening-hours=\"day\"]")) then
        ⟨[], some (.typeError "Cannot set properties of null (setting textContent)")⟩
      else if !page.itemHasElement
          (orDefault selectors.time (utf16 "[opening-hours=\"time\"]")) then
        ⟨[], some (.typeError "Cannot set properties of null (setting textContent)")⟩
      else
        let later := hoursRowLoop cm page selectors total rest (index + 1)
        ⟨⟨dayOfWeek, times, index = total - 1⟩ :: later.page, later.thrown⟩

/-- The function `displayOpeningHours`. -/
def displayOpeningHours (cm : CaseMap) (page : Page) (data : PlaceDetails)
    (selectors : HoursSelectors) : Outcome HoursRendering :=
  if !page.hasElement (orDefault selectors.item (utf16 "[opening-hours=\"item\"]")) then
    ⟨⟨false, []⟩, some (.typeError "Cannot read properties of null (reading cloneNode)")⟩
  else if !page.hasElement (orDefault selectors.list (utf16 "[opening-hours=\"list\"]")) then
    ⟨⟨false, []⟩, none⟩
  else
    match data.opening_hours with
    | none => ⟨⟨true, []⟩, none⟩
    | some oh =>
      match oh.weekday_text with
      | none =>
        ⟨⟨true, []⟩, some (.typeError "Cannot read properties of undefined (reading forEach)")⟩
      | some lines =>
        let loop := hoursRowLoop cm page selectors lines.length lines 0
        ⟨⟨true, loop.page⟩, loop.thrown⟩

/-! ## loadGoogleData -/

/-- The `options` argument of `loadGoogleData`. -/
structure Options where
  schemaEnabled : Bool
  schemaFields : Option SchemaFields
  reviewsEnabled : Bool
  reviewSelectors : Option ReviewSelectors
  openingHoursEnabled : Bool
  openingHoursSelectors : Option HoursSelectors

/-- The empty object `\x7b\x7d` as schema fields. -/
def noSchemaFields : SchemaFields := ⟨none, none, none, none, none, none⟩

/-- The empty object `\x7b\x7d` as review selectors. -/
def noReviewSelectors : ReviewSelectors := ⟨none, none, none, none, none, none⟩

/-- The empty object `\x7b\x7d` as opening-hours selectors. -/
def noHoursSelectors : HoursSelectors := ⟨none, none, none, none⟩

/-- What `loadGoogleData` has written to the page, feature by feature; `none` for a feature
that was not run. -/
structure PageUpdate where
  schema : Option SchemaRecord
  reviews : Option ReviewRendering
  openingHours : Option HoursRendering
deriving DecidableEq

/-- The `then` callback of `loadGoogleData(placeId, options)`, on the fetched payload
`data`: the three features in turn, the first exception ending the callback. -/
def loadGoogleData (cm : CaseMap) (page : Page) (_placeId : JSString) (options : Options)
    (data : PlaceDetails) : Outcome PageUpdate :=
  let schema : Except JSError (Option SchemaRecord) :=
    if options.schemaEnabled then
      (generateSchema cm data (options.schemaFields.getD noSchemaFields)).map some
    else .ok none
  match schema with
  | .error e => ⟨⟨none, none, none⟩, some e⟩
  | .ok schema =>
    let reviews : Outcome (Option ReviewRendering) :=
      if options.reviewsEnabled then
        let r := displayReviews data (options.reviewSelectors.getD noReviewSelectors)
        ⟨some r.page, r.thrown⟩
      else ⟨none, none⟩
    match reviews.thrown with
    | some e => ⟨⟨schema, reviews.page, none⟩, some e⟩
    | none =>
      let hours : Outcome (Option HoursRendering) :=
        if options.openingHoursEnabled then
          let r := displayOpeningHours cm page data
            (options.openingHoursSelectors.getD noHoursSelectors)
          ⟨some r.page, r.thrown⟩
        else ⟨none, none⟩
      ⟨⟨schema, reviews.page, hours.page⟩, hours.thrown⟩

end Kundeportal

namespace Kundeportal

/-! ## Notions used in the statements -/

/-- An optional field is present and non-empty. -/
def PresentNonEmpty (v : Option JSString) : Prop :=
  ∃ s, v = some s ∧ s ≠ []

/-- The contract of one optional field of the schema record: the key is in the record
exactly when the field is present and non-empty, it then holds the value of the caller,
and otherwise the record has no entry for the key. -/
def OptionalFieldContract (record : SchemaRecord) (key : String) (v : Option JSString) :
    Prop :=
  (key ∈ record.map Prod.fst ↔ PresentNonEmpty v)
    ∧ (∀ s, v = some s → s ≠ [] → record.lookup key = some (.text s))
    ∧ (¬ PresentNonEmpty v → record.lookup key = none)

/-- The review selection as the specification words it: go through the reviews in payload
order, keep a review when its photo URL is present and non-empty, and stop once `limit`
reviews are kept. -/
def selectReviews : List Review → Nat → List Review
  | [], _ => []
  | _ :: _, 0 => []
  | review :: rest, limit + 1 =>
    if truthy review.profile_photo_url then review :: selectReviews rest limit
    else selectReviews rest (limit + 1)

/-- The photo writes for a list of reviews, slot `k + 1` taking the `k`-th of them. -/
def photoSlots (profilePhoto : Nat → JSString) (reviews : List Review) :
    List PhotoInstruction :=
  reviews.enum.map fun p => ⟨profilePhoto (p.1 + 1), photoMarkup p.2⟩

/-- Rounding to the nearest integer, a tie going away from zero. -/
def roundHalfAwayFromZero (x : ℚ) : ℤ :=
  if 0 ≤ x then ⌊x + 1 / 2⌋ else -⌊-x + 1 / 2⌋

/-- The hours text of a weekday line as the specification reads it: what follows the first
": " of the line; `none` when the line has no ": ". -/
def hoursText : JSString → Option JSString
  | [] => none
  | c :: rest => if [58, 32].isPrefixOf (c :: rest) then some (rest.drop 1) else hoursText rest

/-- Closed detection as the specification words it: the hours text, lower-cased and trimmed,
is the closed token. A line without hours text is not closed. -/
def isClosedLine (cm : CaseMap) (line : JSString) : Bool :=
  match hoursText line with
  | none => false
  | some hours => trim (cm.toLowerCase hours) = closedToken

/-- The lines of `weekday_text`, none when `opening_hours` or `weekday_text` is absent. -/
def weekdayLines (data : PlaceDetails) : List JSString :=
  match data.opening_hours with
  | none => []
  | some oh => oh.weekday_text.getD []

/-- The hours part of a weekday line as `generateSchema` reads it: the text between the
first and the second ": " of the line; `none` when the line has no ": ". -/
def hoursPart (line : JSString) : Option JSString :=
  (split (utf16 ": ") line)[1]?

/-- The day part of a weekday line: the text before the first ": ". -/
def dayPart (line : JSString) : JSString :=
  (split (utf16 ": ") line).headD []

/-- A weekday line has open hours when its hours part is present and non-empty and,
lower-cased, is not the closed token. -/
def hasOpenHours (cm : CaseMap) (line : JSString) : Bool :=
  match hoursPart line with
  | none => false
  | some [] => false
  | some (c :: cs) => cm.toLowerCase (c :: cs) ≠ closedToken

/-! ## The optional fields of the schema record -/

theorem truthy_iff (v : Option JSString) : truthy v = true ↔ PresentNonEmpty v := by
  rcases v with _ | _ | ⟨c, cs⟩ <;> simp [truthy, PresentNonEmpty]

theorem schemaMarkup_keys (data : PlaceDetails) (fields : SchemaFields)
    (entries : List OpeningHoursSpecification) (key : String) :
    key ∈ (schemaMarkup data fields entries).map Prod.fst ↔
      key = "@context" ∨ key = "@type"
        ∨ (key = "name" ∧ truthy fields.name = true)
        ∨ (key = "url" ∧ truthy fields.url = true)
        ∨ (key = "address" ∧ truthy fields.address = true)
        ∨ (key = "telephone" ∧ truthy fields.telephone = true)
        ∨ (key = "priceRange" ∧ truthy fields.priceRange = true)
        ∨ key = "aggregateRating"
        ∨ (key = "openingHoursSpecification" ∧ entries ≠ []) := by
  simp only [schemaMarkup, spreadField]
  by_cases h1 : truthy fields.name = true <;> by_cases h2 : truthy fields.url = true <;>
    by_cases h3 : truthy fields.address = true <;>
    by_cases h4 : truthy fields.telephone = true <;>
    by_cases h5 : truthy fields.priceRange = true <;>
    by_cases h6 : entries = [] <;>
    simp [h1, h2, h3, h4, h5, h6]

theorem lookup_spreadField_same (key : String) (v : Option JSString) (rest : SchemaRecord) :
    (spreadField key v ++ rest).lookup key =
      if truthy v then some (.text (v.getD [])) else rest.lookup key := by
  unfold spreadField
  split <;> simp [List.lookup]

theorem lookup_spreadField_other (key other : String) (v : Option JSString)
    (rest : SchemaRecord) (h : (key == other) = false) :
    (spreadField other v ++ rest).lookup key = rest.lookup key := by
  unfold spreadField
  split <;> simp [List.lookup, h]

theorem lookup_hours_tail (key : String) (entries : List OpeningHoursSpecification)
    (h : (key == "openingHoursSpecification") = false) :
    (if entries.length ≠ 0
      then [("openingHoursSpecification", SchemaValue.hours entries)] else []).lookup key
      = none := by
  split <;> simp [List.lookup, h]

theorem schemaMarkup_lookup_fields (data : PlaceDetails) (fields : SchemaFields)
    (entries : List OpeningHoursSpecification) :
    let record := schemaMarkup data fields entries
    record.lookup "name" = (if truthy fields.name then some (.text (fields.name.getD [])) else none)
    ∧ record.lookup "url" = (if truthy fields.url then some (.text (fields.url.getD [])) else none)
    ∧ record.lookup "address"
        = (if truthy fields.address then some (.text (fields.address.getD [])) else none)
    ∧ record.lookup "telephone"
        = (if truthy fields.telephone then some (.text (fields.telephone.getD [])) else none)
    ∧ record.lookup "priceRange"
        = (if truthy fields.priceRange then some (.text (fields.priceRange.getD [])) else none)
    := by
  intro record
  simp only [record, schemaMarkup, List.append_assoc, List.cons_append, List.nil_append]
  refine ⟨?_, ?_, ?_, ?_, ?_⟩
  all_goals
    simp only [List.lookup, lookup_spreadField_same, lookup_hours_tail, String.reduceBEq,
      lookup_spreadField_other, ite_self]
    try simp

theorem optionalFieldContract_of (record : SchemaRecord) (key : String)
    (v : Option JSString)
    (hmem : key ∈ record.map Prod.fst ↔ truthy v = true)
    (hlook : record.lookup key = if truthy v then some (.text (v.getD [])) else none) :
    OptionalFieldContract record key v := by
  refine ⟨hmem.trans (truthy_iff v), ?_, ?_⟩
  · intro s hs hne
    have ht : truthy v = true := (truthy_iff v).2 ⟨s, hs, hne⟩
    rw [hlook, if_pos ht, hs]
    rfl
  · intro hn
    have ht : ¬ truthy v = true := fun h => hn ((truthy_iff v).1 h)
    rw [hlook, if_neg ht]

/-- C1. Whenever `generateSchema` completes, each of the five optional fields `name`, `url`,
`address`, `telephone` and `priceRange` is a key of the schema record exactly when the
caller supplied it present and non-empty; the key then holds exactly the supplied value,
and an absent or empty field has no entry at all. -/
theorem generateSchema_optional_fields (cm : CaseMap) (data : PlaceDetails)
    (fields : SchemaFields) (record : SchemaRecord)
    (h : generateSchema cm data fields = .ok record) :
    OptionalFieldContract record "name" fields.name
      ∧ OptionalFieldContract record "url" fields.url
      ∧ OptionalFieldContract record "address" fields.address
      ∧ OptionalFieldContract record "telephone" fields.telephone
      ∧ OptionalFieldContract record "priceRange" fields.priceRange := by
  unfold generateSchema at h
  cases hb : buildOpeningHours cm data with
  | error e => rw [hb] at h; cases h
  | ok entries =>
    rw [hb] at h
    injection h with h
    subst h
    obtain ⟨l1, l2, l3, l4, l5⟩ := schemaMarkup_lookup_fields data fields entries
    refine ⟨optionalFieldContract_of _ _ _ ?_ l1, optionalFieldContract_of _ _ _ ?_ l2,
      optionalFieldContract_of _ _ _ ?_ l3, optionalFieldContract_of _ _ _ ?_ l4,
      optionalFieldContract_of _ _ _ ?_ l5⟩
    all_goals
      rw [schemaMarkup_keys]
      simp

/-- Witness of C1: a payload with opening hours and a field set with a name, an empty url
and no address. -/
theorem generateSchema_optional_fields_witness :
    OptionalFieldContract
        (schemaMarkup ⟨some 4.5, some 12, none, some ⟨some [utf16 "Monday: 9:00 AM – 5:00 PM"]⟩⟩
          ⟨none, some (utf16 "Klinikken"), some [], none, some (utf16 "+47 22 00 00 00"), none⟩
          [⟨utf16 "OpeningHoursSpecification", utf16 "Monday", utf16 "9:00 AM", utf16 "5:00 PM"⟩])
        "name" (some (utf16 "Klinikken"))
      ∧ OptionalFieldContract
        (schemaMarkup ⟨some 4.5, some 12, none, some ⟨some [utf16 "Monday: 9:00 AM – 5:00 PM"]⟩⟩
          ⟨none, some (utf16 "Klinikken"), some [], none, some (utf16 "+47 22 00 00 00"), none⟩
          [⟨utf16 "OpeningHoursSpecification", utf16 "Monday", utf16 "9:00 AM", utf16 "5:00 PM"⟩])
        "url" (some [])
      ∧ OptionalFieldContract
        (schemaMarkup ⟨some 4.5, some 12, none, some ⟨some [utf16 "Monday: 9:00 AM – 5:00 PM"]⟩⟩
          ⟨none, some (utf16 "Klinikken"), some [], none, some (utf16 "+47 22 00 00 00"), none⟩
          [⟨utf16 "OpeningHoursSpecification", utf16 "Monday", utf16 "9:00 AM", utf16 "5:00 PM"⟩])
        "address" none :=
  have h := generateSchema_optional_fields asciiCase
    ⟨some 4.5, some 12, none, some ⟨some [utf16 "Monday: 9:00 AM – 5:00 PM"]⟩⟩
    ⟨none, some (utf16 "Klinikken"), some [], none, some (utf16 "+47 22 00 00 00"), none⟩
    (schemaMarkup ⟨some 4.5, some 12, none, some ⟨some [utf16 "Monday: 9:00 AM – 5:00 PM"]⟩⟩
      ⟨none, some (utf16 "Klinikken"), some [], none, some (utf16 "+47 22 00 00 00"), none⟩
      [⟨utf16 "OpeningHoursSpecification", utf16 "Monday", utf16 "9:00 AM", utf16 "5:00 PM"⟩])
    (by decide!)
  ⟨h.1, h.2.1, h.2.2.1⟩

/-! ## The reviews chosen for the photo slots -/

theorem filter_take_eq_selectReviews (reviews : List Review) (limit : Nat) :
    (reviews.filter fun review => truthy review.profile_photo_url).take limit
      = selectReviews reviews limit := by
  induction reviews generalizing limit with
  | nil => simp [selectReviews]
  | cons r rest ih =>
    cases limit with
    | zero => simp [selectReviews]
    | succ n =>
      by_cases h : truthy r.profile_photo_url = true
      · simp [selectReviews, List.filter_cons, h, ih]
      · simp [selectReviews, List.filter_cons, h, ih]

theorem photoLoop_page (selectors : ReviewSelectors) (profilePhoto : Nat → JSString)
    (h : selectors.profilePhoto = some profilePhoto) (reviews : List Review) (index : Nat) :
    (photoLoop selectors reviews index).page
        = (reviews.enumFrom index).map
            (fun p => (⟨profilePhoto (p.1 + 1), photoMarkup p.2⟩ : PhotoInstruction))
      ∧ (photoLoop selectors reviews index).thrown = none := by
  induction reviews generalizing index with
  | nil => simp [photoLoop]
  | cons r rest ih =>
    obtain ⟨ih1, ih2⟩ := ih (index + 1)
    simp [photoLoop, h, ih1, ih2, List.enumFrom]

/-- C6. The reviews that `displayReviews` and `loadGoogleReviews` choose for the photo slots
are the first three reviews, in payload order, whose `profile_photo_url` is present and
non-empty: the selection is the one the specification describes, has at most three
entries, each with a photo URL, is a subsequence of the reviews and a maximal initial part
of the reviews with a photo, and is empty when the reviews are absent, empty or without
photos; with a `profilePhoto` selector function both scripts write exactly these reviews
into the slots 1, 2, 3. -/
theorem photos_first_three (data : PlaceDetails) (selectors : ReviewSelectors)
    (placeId : JSString) :
    photos data = selectReviews (data.reviews.getD []) 3
      ∧ (photos data).length ≤ 3
      ∧ (∀ review ∈ photos data, PresentNonEmpty review.profile_photo_url)
      ∧ (photos data).Sublist (data.reviews.getD [])
      ∧ (∃ later,
          (data.reviews.getD []).filter (fun review => truthy review.profile_photo_url)
              = photos data ++ later
            ∧ (later ≠ [] → (photos data).length = 3))
      ∧ (data.reviews = none → photos data = [])
      ∧ (data.reviews = some [] → photos data = [])
      ∧ ((∀ review ∈ data.reviews.getD [], ¬ PresentNonEmpty review.profile_photo_url) →
          photos data = [])
      ∧ (∀ profilePhoto, selectors.profilePhoto = some profilePhoto →
          (displayReviews data selectors).page.photos = photoSlots profilePhoto (photos data)
            ∧ (loadGoogleReviews placeId selectors data).page.photos
                = photoSlots profilePhoto (photos data)) := by
  have hphotos : photos data
      = ((data.reviews.getD []).filter fun review => truthy review.profile_photo_url).take 3 := by
    unfold photos
    cases data.reviews <;> simp
  refine ⟨?_, ?_, ?_, ?_, ?_, ?_, ?_, ?_, ?_⟩
  · rw [hphotos, filter_take_eq_selectReviews]
  · rw [hphotos]
    simp [List.length_take]
  · intro review hr
    rw [hphotos] at hr
    have hmem := List.mem_of_mem_take hr
    rw [List.mem_filter] at hmem
    exact (truthy_iff _).1 hmem.2
  · rw [hphotos]
    exact (List.take_sublist _ _).trans (List.filter_sublist _)
  · refine ⟨((data.reviews.getD []).filter
        fun review => truthy review.profile_photo_url).drop 3, ?_, ?_⟩
    · rw [hphotos, List.take_append_drop]
    · intro hne
      rw [hphotos, List.length_take]
      have hlt : 3 < ((data.reviews.getD []).filter
          fun review => truthy review.profile_photo_url).length := by
        by_contra hle
        exact hne (List.drop_eq_nil_of_le (Nat.le_of_not_lt hle))
      omega
  · intro h
    simp [photos, h]
  · intro h
    simp [photos, h]
  · intro h
    rw [hphotos]
    have hnil : (data.reviews.getD []).filter
        (fun review => truthy review.profile_photo_url) = [] := by
      rw [List.filter_eq_nil_iff]
      intro review hr ht
      exact h review hr ((truthy_iff _).1 ht)
    rw [hnil]
    rfl
  · intro profilePhoto hp
    have hloop := (photoLoop_page selectors profilePhoto hp (photos data) 0).1
    refine ⟨?_, ?_⟩
    · simp only [displayReviews, hloop, photoSlots, List.enum]
    · simp only [loadGoogleReviews, hloop, photoSlots, List.enum]

/-- Witness of C6: of five reviews, the second, the fourth and the fifth have a photo, and
these three are chosen, in that order. -/
theorem photos_first_three_witness :
    photos ⟨some 4, none, some
        [⟨some (utf16 "A"), none⟩, ⟨some (utf16 "B"), some (utf16 "b.png")⟩,
         ⟨some (utf16 "C"), some []⟩, ⟨some (utf16 "D"), some (utf16 "d.png")⟩,
         ⟨some (utf16 "E"), some (utf16 "e.png")⟩], none⟩
      = [⟨some (utf16 "B"), some (utf16 "b.png")⟩, ⟨some (utf16 "D"), some (utf16 "d.png")⟩,
         ⟨some (utf16 "E"), some (utf16 "e.png")⟩] :=
  ((photos_first_three ⟨some 4, none, some
        [⟨some (utf16 "A"), none⟩, ⟨some (utf16 "B"), some (utf16 "b.png")⟩,
         ⟨some (utf16 "C"), some []⟩, ⟨some (utf16 "D"), some (utf16 "d.png")⟩,
         ⟨some (utf16 "E"), some (utf16 "e.png")⟩], none⟩ noReviewSelectors []).1).trans
    (by decide)

/-! ## The star bar -/

theorem roundHalfAwayFromZero_nearest (x : ℚ) :
    |(roundHalfAwayFromZero x : ℚ) - x| ≤ 1 / 2
      ∧ (|(roundHalfAwayFromZero x : ℚ) - x| = 1 / 2 → |x| < |(roundHalfAwayFromZero x : ℚ)|) := by
  unfold roundHalfAwayFromZero
  split_ifs with h
  · have h1 := Int.floor_le (x + 1 / 2)
    have h2 := Int.lt_floor_add_one (x + 1 / 2)
    refine ⟨abs_le.2 ⟨by linarith, by linarith⟩, fun he => ?_⟩
    have hr : (⌊x + 1 / 2⌋ : ℚ) - x = 1 / 2 := by
      rcases abs_eq (by norm_num : (0 : ℚ) ≤ 1 / 2) |>.1 he with h3 | h3
      · exact h3
      · linarith
    rw [abs_of_nonneg h, abs_of_nonneg (by linarith)]
    linarith
  · have hx : x < 0 := lt_of_not_le h
    have h1 := Int.floor_le (-x + 1 / 2)
    have h2 := Int.lt_floor_add_one (-x + 1 / 2)
    push_cast
    refine ⟨abs_le.2 ⟨by linarith, by linarith⟩, fun he => ?_⟩
    have hr : -(⌊-x + 1 / 2⌋ : ℚ) - x = -(1 / 2) := by
      rcases abs_eq (by norm_num : (0 : ℚ) ≤ 1 / 2) |>.1 he with h3 | h3
      · linarith
      · exact h3
    rw [abs_of_neg hx, abs_of_nonpos (by linarith)]
    linarith

theorem scoreText_examples :
    (displayReviews ⟨none, none, none, none⟩ noReviewSelectors).page.scoreText = utf16 "0"
      ∧ (displayReviews ⟨some 4, none, none, none⟩ noReviewSelectors).page.scoreText = utf16 "4"
      ∧ (displayReviews ⟨some 4.25, none, none, none⟩ noReviewSelectors).page.scoreText
          = utf16 "4.3"
      ∧ (displayReviews ⟨some 4.5, none, none, none⟩ noReviewSelectors).page.scoreText
          = utf16 "4.5"
      ∧ (displayReviews ⟨some (-4.25), none, none, none⟩ noReviewSelectors).page.scoreText
          = utf16 "-4.3"
      ∧ roundHalfAwayFromZero (4.25 * 10) = 43 := by
  decide!

/-! ## Splitting and replacing -/

theorem splitGo_skip (sep pre rest : JSString) :
    splitGo sep pre.length (pre ++ rest) = splitGo sep 0 rest := by
  induction pre with
  | nil => rfl
  | cons c cs ih =>
    cases hr : cs ++ rest with
    | nil =>
      have h1 : cs = [] := (List.append_eq_nil.1 hr).1
      have h2 : rest = [] := (List.append_eq_nil.1 hr).2
      subst h1 h2
      simp [splitGo]
    | cons d ds =>
      simp only [List.length_cons, List.cons_append, splitGo]
      exact ih

theorem splitGo_cons (sep : JSString) (c : Nat) (rest : JSString) :
    splitGo sep 0 (c :: rest) =
      if sep.isPrefixOf (c :: rest) then [] :: splitGo sep (sep.length - 1) rest
      else
        match splitGo sep 0 rest with
        | [] => [[c]]
        | seg :: segs => (c :: seg) :: segs := by
  rw [splitGo]

theorem splitGo_no_occurrence (sep s : JSString) (h : ¬ sep <:+: s) :
    splitGo sep 0 s = [s] := by
  induction s with
  | nil => rfl
  | cons c rest ih =>
    have hpre : ¬ sep <+: c :: rest := fun hp => h hp.isInfix
    have hrest : ¬ sep <:+: rest := fun hi => h (hi.trans (List.suffix_cons c rest).isInfix)
    have hb : sep.isPrefixOf (c :: rest) = false := by
      rw [Bool.eq_false_iff]
      intro hp
      exact hpre (List.isPrefixOf_iff_prefix.1 hp)
    rw [splitGo_cons, hb, ih hrest]
    rfl

theorem splitGo_first (sep D rest : JSString) (hsep : sep ≠ [])
    (hfirst : ∀ t, t ≠ [] → t <:+ D → ¬ sep <+: t ++ (sep ++ rest)) :
    splitGo sep 0 (D ++ (sep ++ rest)) = D :: splitGo sep 0 rest := by
  induction D with
  | nil =>
    cases sep with
    | nil => exact absurd rfl hsep
    | cons c cs =>
      have hb : (c :: cs).isPrefixOf (c :: (cs ++ rest)) = true :=
        List.isPrefixOf_iff_prefix.2 (List.prefix_append (c :: cs) rest)
      rw [List.nil_append, List.cons_append, splitGo_cons, hb, if_pos rfl, List.length_cons,
        Nat.add_sub_cancel, splitGo_skip]
  | cons d ds ih =>
    have hb : sep.isPrefixOf (d :: (ds ++ (sep ++ rest))) = false := by
      rw [Bool.eq_false_iff]
      intro hp
      exact hfirst (d :: ds) (by simp) (List.suffix_refl _) (List.isPrefixOf_iff_prefix.1 hp)
    have hih := ih fun t ht hsuf =>
      hfirst t ht (hsuf.trans (List.suffix_cons d ds))
    rw [List.cons_append, splitGo_cons, hb, hih]
    rfl

theorem infix_pair_append (x y S : Nat) (A B : JSString) (hx : S ≠ x) (hy : S ≠ y)
    (h : [x, y] <:+: A ++ S :: B) : [x, y] <:+: A ∨ [x, y] <:+: B := by
  induction A with
  | nil =>
    rw [List.nil_append, List.infix_cons_iff] at h
    rcases h with h | h
    · obtain ⟨t, ht⟩ := h
      simp at ht
      exact absurd ht.1.symm hx
    · exact Or.inr h
  | cons a as ih =>
    rw [List.cons_append, List.infix_cons_iff] at h
    rcases h with h | h
    · left
      obtain ⟨t, ht⟩ := h
      cases as with
      | nil =>
        simp at ht
        exact absurd ht.2.1.symm hy
      | cons b bs =>
        simp at ht
        obtain ⟨h1, h2, -⟩ := ht
        subst h1 h2
        exact (List.prefix_append [x, y] bs).isInfix
    · rcases ih h with h1 | h1
      · exact Or.inl (h1.trans (List.suffix_cons a as).isInfix)
      · exact Or.inr h1

theorem first_colon (D rest : JSString) (hD : ¬ [58, 32] <:+: D) :
    ∀ t, t ≠ [] → t <:+ D → ¬ [58, 32] <+: t ++ ([58, 32] ++ rest) := by
  intro t ht hsuf hp
  obtain ⟨u, hu⟩ := hp
  cases t with
  | nil => exact ht rfl
  | cons a as =>
    cases as with
    | nil => simp at hu
    | cons b bs =>
      simp at hu
      obtain ⟨h1, h2, -⟩ := hu
      subst h1 h2
      exact hD ((List.prefix_append [58, 32] bs).isInfix.trans hsuf.isInfix)

theorem first_hyphen (A rest : JSString) (hA : ¬ [32, 45, 32] <:+: A)
    (hend : ¬ [32, 45] <:+ A) :
    ∀ t, t ≠ [] → t <:+ A → ¬ [32, 45, 32] <+: t ++ ([32, 45, 32] ++ rest) := by
  intro t ht hsuf hp
  obtain ⟨u, hu⟩ := hp
  cases t with
  | nil => exact ht rfl
  | cons a as =>
    cases as with
    | nil => simp at hu
    | cons b bs =>
      cases bs with
      | nil =>
        simp at hu
        obtain ⟨h1, h2, -⟩ := hu
        subst h1 h2
        exact hend hsuf
      | cons c cs =>
        simp at hu
        obtain ⟨h1, h2, h3, -⟩ := hu
        subst h1 h2 h3
        exact hA ((List.prefix_append [32, 45, 32] cs).isInfix.trans hsuf.isInfix)

theorem replaceDashes_append (s t : JSString) :
    replaceDashes (s ++ t) = replaceDashes s ++ replaceDashes t := by
  simp [replaceDashes]

theorem replaceDashes_plain (s : JSString) (h1 : enDash ∉ s) (h2 : emDash ∉ s) :
    replaceDashes s = s := by
  induction s with
  | nil => rfl
  | cons c cs ih =>
    have hc1 : c ≠ enDash := fun h => h1 (h ▸ List.mem_cons_self _ _)
    have hc2 : c ≠ emDash := fun h => h2 (h ▸ List.mem_cons_self _ _)
    have ih2 := ih (fun h => h1 (List.mem_cons_of_mem _ h)) (fun h => h2 (List.mem_cons_of_mem _ h))
    unfold replaceDashes at ih2 ⊢
    simp only [List.map_cons, List.flatten_cons, hc1, hc2, or_self, if_false, ih2]
    rfl

theorem replaceDashes_range (A B : JSString) (S : Nat) (hS : S = enDash ∨ S = emDash)
    (hA1 : enDash ∉ A) (hA2 : emDash ∉ A) (hB1 : enDash ∉ B) (hB2 : emDash ∉ B) :
    replaceDashes (A ++ S :: B) = A ++ ([32, 45, 32] ++ B) := by
  have hS2 : replaceDashes [S] = [32, 45, 32] := by
    simp [replaceDashes, hS]
  have : A ++ S :: B = A ++ ([S] ++ B) := rfl
  rw [this, replaceDashes_append, replaceDashes_append, hS2, replaceDashes_plain A hA1 hA2,
    replaceDashes_plain B hB1 hB2]

/-! ## The opening hours of the schema record -/

theorem schemaMarkup_lookup_hours (data : PlaceDetails) (fields : SchemaFields)
    (entries : List OpeningHoursSpecification) :
    (schemaMarkup data fields entries).lookup "openingHoursSpecification"
      = if entries = [] then none else some (.hours entries) := by
  simp only [schemaMarkup, List.append_assoc, List.cons_append, List.nil_append]
  simp only [List.lookup, lookup_spreadField_other, String.reduceBEq]
  by_cases h : entries = []
  · simp [h]
  · have hl : entries.length ≠ 0 := fun h0 => h (List.length_eq_zero.1 h0)
    simp [h, hl, List.lookup]

theorem hoursEntry_range (cm : CaseMap) (D A B : JSString) (S : Nat)
    (hS : S = enDash ∨ S = emDash) (hDc : ¬ utf16 ": " <:+: D)
    (hA1 : ¬ utf16 ": " <:+: A) (hA2 : enDash ∉ A) (hA3 : emDash ∉ A)
    (hA4 : ¬ utf16 " - " <:+: A) (hA5 : ¬ utf16 " -" <:+ A)
    (hB1 : ¬ utf16 ": " <:+: B) (hB2 : enDash ∉ B) (hB3 : emDash ∉ B)
    (hB4 : ¬ utf16 " - " <:+: B)
    (hclosed : cm.toLowerCase (A ++ S :: B) ≠ closedToken) :
    hoursEntry cm (D ++ utf16 ": " ++ A ++ S :: B)
      = .ok (some ⟨utf16 "OpeningHoursSpecification", cm.toUpperCase (D.take 1) ++ D.drop 1,
          trim A, trim B⟩) := by
  have hc : utf16 ": " = [58, 32] := by decide
  have hh : utf16 " - " = [32, 45, 32] := by decide
  have he : utf16 " -" = [32, 45] := by decide
  rw [hc] at hDc hA1 hB1
  rw [hh] at hA4 hB4
  rw [he] at hA5
  have hS58 : S ≠ 58 := by rcases hS with h | h <;> rw [h] <;> decide
  have hS32 : S ≠ 32 := by rcases hS with h | h <;> rw [h] <;> decide
  have hrest : ¬ [58, 32] <:+: A ++ S :: B := fun h =>
    (infix_pair_append 58 32 S A B hS58 hS32 h).elim hA1 hB1
  have hparts : split (utf16 ": ") (D ++ utf16 ": " ++ A ++ S :: B) = [D, A ++ S :: B] := by
    unfold split
    rw [hc, if_neg (by simp)]
    have hassoc : D ++ [58, 32] ++ A ++ S :: B = D ++ ([58, 32] ++ (A ++ S :: B)) := by
      simp [List.append_assoc]
    rw [hassoc, splitGo_first _ _ _ (by simp) (first_colon D _ hDc),
      splitGo_no_occurrence _ _ hrest]
  have hpieces : split (utf16 " - ") (replaceDashes (A ++ S :: B)) = [A, B] := by
    unfold split
    rw [hh, if_neg (by simp), replaceDashes_range A B S hS hA2 hA3 hB2 hB3,
      splitGo_first _ _ _ (by simp) (first_hyphen A _ hA4 hA5),
      splitGo_no_occurrence _ _ hB4]
  have htruthy : truthy (some (A ++ S :: B)) = true := by
    cases A <;> rfl
  unfold hoursEntry
  simp only [hparts, List.getElem?_cons_zero, List.getElem?_cons_succ, Option.getD_some,
    htruthy, hclosed, ne_eq, not_false_eq_true, and_self, if_true, hpieces]

theorem buildOpeningHours_single (cm : CaseMap) (data : PlaceDetails) (line : JSString)
    (entry : OpeningHoursSpecification)
    (hdata : data.opening_hours = some ⟨some [line]⟩)
    (hline : hoursEntry cm line = .ok (some entry)) :
    buildOpeningHours cm data = .ok [entry] := by
  unfold buildOpeningHours
  rw [hdata]
  simp only [hoursLoop, hline, List.nil_append]

/-- C3, as stated, fails: in the line "Monday: 9 -–5 PM" the opening text "9 -" ends in
space, hyphen, so the canonical separator is first found one place early, and the entry
opens at "9" and closes at "- 5 PM" instead of "9 -" and "5 PM". Every condition of the
claim holds for this line. -/
theorem range_line_hyphen_end :
    (utf16 "Monday" ≠ [] ∧ ¬ utf16 ": " <:+: utf16 "Monday")
      ∧ (¬ utf16 ": " <:+: utf16 "9 -" ∧ enDash ∉ utf16 "9 -" ∧ emDash ∉ utf16 "9 -"
          ∧ ¬ utf16 " - " <:+: utf16 "9 -")
      ∧ (¬ utf16 ": " <:+: utf16 "5 PM" ∧ enDash ∉ utf16 "5 PM" ∧ emDash ∉ utf16 "5 PM"
          ∧ ¬ utf16 " - " <:+: utf16 "5 PM")
      ∧ asciiCase.toLowerCase (trim (utf16 "9 -")) ≠ closedToken
      ∧ asciiCase.toLowerCase (utf16 "9 -" ++ enDash :: utf16 "5 PM") ≠ closedToken
      ∧ utf16 "Monday" ++ utf16 ": " ++ utf16 "9 -" ++ enDash :: utf16 "5 PM"
          = utf16 "Monday: 9 -–5 PM"
      ∧ buildOpeningHours asciiCase ⟨none, none, none, some ⟨some [utf16 "Monday: 9 -–5 PM"]⟩⟩
          = .ok [⟨utf16 "OpeningHoursSpecification", utf16 "Monday", utf16 "9", utf16 "- 5 PM"⟩]
      ∧ buildOpeningHours asciiCase ⟨none, none, none, some ⟨some [utf16 "Monday: 9 -–5 PM"]⟩⟩
          ≠ .ok [⟨utf16 "OpeningHoursSpecification", utf16 "Monday", trim (utf16 "9 -"),
              trim (utf16 "5 PM")⟩] := by
  decide

/-- C3, amended. For a weekday line `D + ": " + A + S + B`, where `S` is an en dash or an em
dash, `D` is non-empty and contains no ": ", `A` and `B` contain no ": ", no en dash, no em
dash and no " - ", `A` does not end in " -", and the hours text lower-cased is not the
closed token: the hours parsing of `generateSchema` yields exactly one entry, with the day
`D` with its first code unit upper-cased and the remainder unchanged, opening at `A`
trimmed and closing at `B` trimmed, and the schema record holds that entry. -/
theorem generateSchema_range_line (cm : CaseMap) (data : PlaceDetails)
    (fields : SchemaFields) (D A B : JSString) (S : Nat)
    (hS : S = enDash ∨ S = emDash) (hD : D ≠ []) (hDc : ¬ utf16 ": " <:+: D)
    (hA1 : ¬ utf16 ": " <:+: A) (hA2 : enDash ∉ A) (hA3 : emDash ∉ A)
    (hA4 : ¬ utf16 " - " <:+: A) (hA5 : ¬ utf16 " -" <:+ A)
    (hB1 : ¬ utf16 ": " <:+: B) (hB2 : enDash ∉ B) (hB3 : emDash ∉ B)
    (hB4 : ¬ utf16 " - " <:+: B)
    (hclosed : cm.toLowerCase (A ++ S :: B) ≠ closedToken)
    (hdata : data.opening_hours = some ⟨some [D ++ utf16 ": " ++ A ++ S :: B]⟩) :
    buildOpeningHours cm data
        = .ok [⟨utf16 "OpeningHoursSpecification", cm.toUpperCase [D.head hD] ++ D.tail,
            trim A, trim B⟩]
      ∧ ∃ record, generateSchema cm data fields = .ok record
          ∧ record.lookup "openingHoursSpecification"
              = some (.hours [⟨utf16 "OpeningHoursSpecification",
                  cm.toUpperCase [D.head hD] ++ D.tail, trim A, trim B⟩]) := by
  have hentry := hoursEntry_range cm D A B S hS hDc hA1 hA2 hA3 hA4 hA5 hB1 hB2 hB3 hB4 hclosed
  have hday : cm.toUpperCase (D.take 1) ++ D.drop 1 = cm.toUpperCase [D.head hD] ++ D.tail := by
    cases D with
    | nil => exact absurd rfl hD
    | cons d ds => rfl
  rw [hday] at hentry
  have hbuild := buildOpeningHours_single cm data _ _ hdata hentry
  refine ⟨hbuild, schemaMarkup data fields [⟨utf16 "OpeningHoursSpecification",
    cm.toUpperCase [D.head hD] ++ D.tail, trim A, trim B⟩], ?_, ?_⟩
  · unfold generateSchema
    rw [hbuild]
  · rw [schemaMarkup_lookup_hours, if_neg (by simp)]

/-- Witness of C3, amended: "Monday: 9:00 AM – 5:00 PM" gives Monday, "9:00 AM",
"5:00 PM". -/
theorem generateSchema_range_line_witness :
    buildOpeningHours asciiCase
        ⟨some 4.5, some 12, none, some ⟨some [utf16 "Monday: 9:00 AM – 5:00 PM"]⟩⟩
      = .ok [⟨utf16 "OpeningHoursSpecification", utf16 "Monday", utf16 "9:00 AM",
          utf16 "5:00 PM"⟩] :=
  (generateSchema_range_line asciiCase
    ⟨some 4.5, some 12, none, some ⟨some [utf16 "Monday: 9:00 AM – 5:00 PM"]⟩⟩ noSchemaFields
    (utf16 "Monday") (utf16 "9:00 AM ") (utf16 " 5:00 PM") enDash (Or.inl rfl)
    (by decide) (by decide) (by decide) (by decide) (by decide) (by decide) (by decide)
    (by decide) (by decide) (by decide) (by decide) (by decide) (by decide)).1.trans (by decide)

theorem splitGo_ne_nil (sep : JSString) (skip : Nat) (s : JSString) :
    splitGo sep skip s ≠ [] := by
  induction s generalizing skip with
  | nil => cases skip <;> simp [splitGo]
  | cons c rest ih =>
    cases skip with
    | succ k =>
      rw [splitGo]
      exact ih k
    | zero =>
      rw [splitGo_cons]
      split_ifs
      · simp
      · cases splitGo sep 0 rest <;> simp

theorem split_colon_cons (line : JSString) :
    ∃ p0 more, split (utf16 ": ") line = p0 :: more := by
  have hc : utf16 ": " = [58, 32] := by decide
  unfold split
  rw [hc, if_neg (by simp)]
  cases h : splitGo [58, 32] 0 line with
  | nil => exact absurd h (splitGo_ne_nil _ _ _)
  | cons p0 more => exact ⟨p0, more, rfl⟩

theorem hoursEntry_closed (cm : CaseMap) (line : JSString)
    (h : hasOpenHours cm line = false) : hoursEntry cm line = .ok none := by
  obtain ⟨p0, more, hs⟩ := split_colon_cons line
  unfold hasOpenHours hoursPart at h
  unfold hoursEntry
  rw [hs] at h ⊢
  cases more with
  | nil => simp [truthy]
  | cons p1 rest =>
    cases p1 with
    | nil => simp [truthy]
    | cons c cs =>
      simp only [List.getElem?_cons_succ, List.getElem?_cons_zero, decide_eq_false_iff_not,
        ne_eq, not_not] at h
      simp [h]

theorem hoursEntry_open (cm : CaseMap) (line : JSString) (entry : OpeningHoursSpecification)
    (h : hoursEntry cm line = .ok (some entry)) :
    hasOpenHours cm line = true
      ∧ entry.type = utf16 "OpeningHoursSpecification"
      ∧ entry.dayOfWeek = cm.toUpperCase ((dayPart line).take 1) ++ (dayPart line).drop 1 := by
  obtain ⟨p0, more, hs⟩ := split_colon_cons line
  have hopen : hasOpenHours cm line = true := by
    by_contra hc
    rw [hoursEntry_closed cm line (by simpa using hc)] at h
    cases h
  refine ⟨hopen, ?_⟩
  unfold hoursEntry at h
  unfold dayPart
  rw [hs] at h ⊢
  simp only [List.getElem?_cons_zero, List.headD_cons] at h ⊢
  split_ifs at h with hg
  · split at h
    · cases h
    · cases h
    · injection h with h
      injection h with h
      subst h
      exact ⟨rfl, rfl⟩
  · cases h

theorem hoursLoop_ok (cm : CaseMap) (lines : List JSString)
    (acc out : List OpeningHoursSpecification) (h : hoursLoop cm lines acc = .ok out) :
    ∃ entries, out = acc ++ entries
      ∧ List.Forall₂ (fun line entry => hoursEntry cm line = .ok (some entry))
          (lines.filter (hasOpenHours cm)) entries := by
  induction lines generalizing acc with
  | nil =>
    rw [hoursLoop] at h
    injection h with h
    exact ⟨[], by simp [h], by simp⟩
  | cons line rest ih =>
    rw [hoursLoop] at h
    cases he : hoursEntry cm line with
    | error e => rw [he] at h; cases h
    | ok r =>
      cases r with
      | none =>
        rw [he] at h
        have hclosed : hasOpenHours cm line = false := by
          by_contra hc
          have hopen : hasOpenHours cm line = true := by simpa using hc
          obtain ⟨p0, more, hs⟩ := split_colon_cons line
          unfold hasOpenHours hoursPart at hopen
          unfold hoursEntry at he
          rw [hs] at hopen he
          cases more with
          | nil => simp at hopen
          | cons p1 rest2 =>
            cases p1 with
            | nil => simp at hopen
            | cons c cs =>
              simp only [List.getElem?_cons_succ, List.getElem?_cons_zero,
                decide_eq_true_eq] at hopen
              simp only [List.getElem?_cons_zero, List.getElem?_cons_succ, Option.getD_some,
                truthy, hopen, ne_eq, not_false_eq_true, and_self, if_true] at he
              split at he <;> cases he
        obtain ⟨entries, hout, hall⟩ := ih acc h
        refine ⟨entries, hout, ?_⟩
        rw [List.filter_cons, hclosed]
        exact hall
      | some entry =>
        rw [he] at h
        obtain ⟨entries, hout, hall⟩ := ih (acc ++ [entry]) h
        refine ⟨entry :: entries, by simp [hout], ?_⟩
        rw [List.filter_cons, (hoursEntry_open cm line entry he).1, if_pos rfl]
        exact List.Forall₂.cons he hall

theorem buildOpeningHours_eq_hoursLoop (cm : CaseMap) (data : PlaceDetails) :
    buildOpeningHours cm data = hoursLoop cm (weekdayLines data) [] := by
  unfold buildOpeningHours weekdayLines
  cases data.opening_hours with
  | none => rfl
  | some oh =>
    cases hw : oh.weekday_text with
    | none => simp only [hw]; rfl
    | some lines => simp only [hw]; rfl

/-- C2, as stated, fails: of the two lines "Monday: 9:00 AM – 5:00 PM" and "Tuesday" neither
is closed, `generateSchema` completes, and the record holds one entry, for Monday only:
the line without hours text is passed over silently. -/
theorem schema_hours_line_without_hours :
    isClosedLine asciiCase (utf16 "Monday: 9:00 AM – 5:00 PM") = false
      ∧ isClosedLine asciiCase (utf16 "Tuesday") = false
      ∧ generateSchema asciiCase
          ⟨none, none, none, some ⟨some [utf16 "Monday: 9:00 AM – 5:00 PM", utf16 "Tuesday"]⟩⟩
          noSchemaFields
        = .ok (schemaMarkup
            ⟨none, none, none, some ⟨some [utf16 "Monday: 9:00 AM – 5:00 PM", utf16 "Tuesday"]⟩⟩
            noSchemaFields
            [⟨utf16 "OpeningHoursSpecification", utf16 "Monday", utf16 "9:00 AM",
              utf16 "5:00 PM"⟩])
      ∧ (schemaMarkup
            ⟨none, none, none, some ⟨some [utf16 "Monday: 9:00 AM – 5:00 PM", utf16 "Tuesday"]⟩⟩
            noSchemaFields
            [⟨utf16 "OpeningHoursSpecification", utf16 "Monday", utf16 "9:00 AM",
              utf16 "5:00 PM"⟩]).lookup "openingHoursSpecification"
        = some (.hours [⟨utf16 "OpeningHoursSpecification", utf16 "Monday", utf16 "9:00 AM",
            utf16 "5:00 PM"⟩]) := by
  decide

/-- C2, amended. Whenever `generateSchema` completes, `openingHoursSpecification` holds, in
input order, exactly one entry per `weekday_text` line whose hours part (the text between
the first and the second ": ") is present, non-empty and, lower-cased, not the closed
token, each entry carrying the capitalised day part of its line, and no entry for any
other line; the key is absent from the record, never bound to an empty list, exactly when
there is no such line, which covers an absent `opening_hours`, an absent or empty
`weekday_text`, and lines that are all closed. -/
theorem generateSchema_hours (cm : CaseMap) (data : PlaceDetails) (fields : SchemaFields)
    (record : SchemaRecord) (h : generateSchema cm data fields = .ok record) :
    ∃ entries, buildOpeningHours cm data = .ok entries
      ∧ List.Forall₂
          (fun line entry => hoursEntry cm line = .ok (some entry)
            ∧ entry.dayOfWeek
                = cm.toUpperCase ((dayPart line).take 1) ++ (dayPart line).drop 1)
          ((weekdayLines data).filter (hasOpenHours cm)) entries
      ∧ (∀ line ∈ weekdayLines data, hasOpenHours cm line = false →
          hoursEntry cm line = .ok none)
      ∧ record.lookup "openingHoursSpecification"
          = (if entries = [] then none else some (.hours entries))
      ∧ ("openingHoursSpecification" ∈ record.map Prod.fst ↔ entries ≠ [])
      ∧ (entries = [] ↔ ∀ line ∈ weekdayLines data, hasOpenHours cm line = false) := by
  unfold generateSchema at h
  cases hb : buildOpeningHours cm data with
  | error e => rw [hb] at h; cases h
  | ok entries =>
    rw [hb] at h
    injection h with h
    subst h
    have hloop := hoursLoop_ok cm (weekdayLines data) [] entries
      (by rw [← buildOpeningHours_eq_hoursLoop]; exact hb)
    obtain ⟨es, hes, hall⟩ := hloop
    rw [List.nil_append] at hes
    subst hes
    refine ⟨entries, rfl, ?_, fun line _ hc => hoursEntry_closed cm line hc,
      schemaMarkup_lookup_hours data fields entries, ?_, ?_⟩
    · exact hall.imp fun {line entry} he => ⟨he, (hoursEntry_open cm line entry he).2.2⟩
    · rw [schemaMarkup_keys]
      simp
    · have hlen := hall.length_eq
      constructor
      · intro hnil line hmem
        by_contra hc
        have hopen : hasOpenHours cm line = true := by simpa using hc
        have hin : line ∈ (weekdayLines data).filter (hasOpenHours cm) :=
          List.mem_filter.2 ⟨hmem, hopen⟩
        rw [hnil, List.length_nil] at hlen
        rw [List.length_eq_zero.1 hlen] at hin
        cases hin
      · intro hclosed
        have hfil : (weekdayLines data).filter (hasOpenHours cm) = [] := by
          rw [List.filter_eq_nil_iff]
          intro line hmem ht
          rw [hclosed line hmem] at ht
          cases ht
        rw [hfil, List.length_nil] at hlen
        exact List.length_eq_zero.1 hlen.symm

/-- Witness of C2, amended: Monday is open and Tuesday is closed, and the record holds the
one entry for Monday. -/
theorem generateSchema_hours_witness :
    ∃ entries, buildOpeningHours asciiCase
        ⟨some 4.5, some 12, none,
          some ⟨some [utf16 "Monday: 9:00 AM – 5:00 PM", utf16 "Tuesday: Stengt"]⟩⟩
        = .ok entries
      ∧ (schemaMarkup
          ⟨some 4.5, some 12, none,
            some ⟨some [utf16 "Monday: 9:00 AM – 5:00 PM", utf16 "Tuesday: Stengt"]⟩⟩
          noSchemaFields
          [⟨utf16 "OpeningHoursSpecification", utf16 "Monday", utf16 "9:00 AM",
            utf16 "5:00 PM"⟩]).lookup "openingHoursSpecification"
        = (if entries = [] then none else some (.hours entries)) :=
  have h := generateSchema_hours asciiCase
    ⟨some 4.5, some 12, none,
      some ⟨some [utf16 "Monday: 9:00 AM – 5:00 PM", utf16 "Tuesday: Stengt"]⟩⟩
    noSchemaFields
    (schemaMarkup
      ⟨some 4.5, some 12, none,
        some ⟨some [utf16 "Monday: 9:00 AM – 5:00 PM", utf16 "Tuesday: Stengt"]⟩⟩
      noSchemaFields
      [⟨utf16 "OpeningHoursSpecification", utf16 "Monday", utf16 "9:00 AM", utf16 "5:00 PM"⟩])
    (by decide!)
  h.imp fun _ he => ⟨he.1, he.2.2.2.1⟩

/-! ## Lines that make generateSchema throw -/

theorem hoursLoop_error (cm : CaseMap) (lines : List JSString) (line : JSString)
    (hmem : line ∈ lines) (hline : ∃ e, hoursEntry cm line = .error e)
    (acc : List OpeningHoursSpecification) : ∃ e, hoursLoop cm lines acc = .error e := by
  induction lines generalizing acc with
  | nil => cases hmem
  | cons first rest ih =>
    rw [hoursLoop]
    rcases List.mem_cons.1 hmem with hfirst | hrest
    · subst hfirst
      obtain ⟨e, he⟩ := hline
      exact ⟨e, by rw [he]⟩
    · cases hf : hoursEntry cm first with
      | error e => exact ⟨e, rfl⟩
      | ok r =>
        cases r with
        | none => exact ih hrest acc
        | some entry => exact ih hrest (acc ++ [entry])

theorem generateSchema_error (cm : CaseMap) (data : PlaceDetails) (fields : SchemaFields)
    (line : JSString) (hmem : line ∈ weekdayLines data)
    (hline : ∃ e, hoursEntry cm line = .error e) :
    ∃ e, generateSchema cm data fields = .error e := by
  obtain ⟨e, he⟩ := hoursLoop_error cm (weekdayLines data) line hmem hline []
  refine ⟨e, ?_⟩
  unfold generateSchema
  rw [buildOpeningHours_eq_hoursLoop, he]

theorem hoursEntry_malformed (cm : CaseMap) (D H : JSString) (hDc : ¬ utf16 ": " <:+: D)
    (hH0 : H ≠ []) (hH1 : ¬ utf16 ": " <:+: H) (hH2 : enDash ∉ H) (hH3 : emDash ∉ H)
    (hH4 : ¬ utf16 " - " <:+: H) (hclosed : cm.toLowerCase H ≠ closedToken) :
    hoursEntry cm (D ++ utf16 ": " ++ H)
      = .error (.typeError "Cannot read properties of undefined (reading trim)") := by
  have hc : utf16 ": " = [58, 32] := by decide
  have hh : utf16 " - " = [32, 45, 32] := by decide
  rw [hc] at hDc hH1
  rw [hh] at hH4
  have hparts : split (utf16 ": ") (D ++ utf16 ": " ++ H) = [D, H] := by
    unfold split
    rw [hc, if_neg (by simp), List.append_assoc,
      splitGo_first _ _ _ (by simp) (first_colon D _ hDc), splitGo_no_occurrence _ _ hH1]
  have hpieces : split (utf16 " - ") (replaceDashes H) = [H] := by
    unfold split
    rw [hh, if_neg (by simp), replaceDashes_plain H hH2 hH3, splitGo_no_occurrence _ _ hH4]
  have htruthy : truthy (some H) = true := by
    cases H with
    | nil => exact absurd rfl hH0
    | cons c cs => rfl
  unfold hoursEntry
  simp only [hparts, List.getElem?_cons_zero, List.getElem?_cons_succ, Option.getD_some,
    htruthy, hclosed, ne_eq, not_false_eq_true, and_self, if_true, hpieces]
  rfl

/-- C4, the failing input: with the malformed line "Tuesday: by appointment" between two
well-formed lines, `generateSchema` throws a TypeError at `closeTime.trim()` and produces
no schema record at all, the entries of the well-formed lines included. -/
theorem generateSchema_malformed_line_throws :
    generateSchema asciiCase
        ⟨some 4.5, some 12, none,
          some ⟨some [utf16 "Monday: 9:00 AM – 5:00 PM", utf16 "Tuesday: by appointment",
            utf16 "Wednesday: 9:00 AM – 5:00 PM"]⟩⟩
        noSchemaFields
      = .error (.typeError "Cannot read properties of undefined (reading trim)") := by
  decide!

/-- C5, the failing input: the hours text "stengt " is the closed token once trimmed, yet
`generateSchema` compares it untrimmed, takes the line for an hours range and throws a
TypeError at `closeTime.trim()`; the same text without the blank is classified as closed. -/
theorem generateSchema_closed_untrimmed_throws :
    isClosedLine asciiCase (utf16 "Monday: stengt ") = true
      ∧ generateSchema asciiCase
          ⟨none, none, none, some ⟨some [utf16 "Monday: stengt "]⟩⟩ noSchemaFields
        = .error (.typeError "Cannot read properties of undefined (reading trim)")
      ∧ hoursEntry asciiCase (utf16 "Monday:  Stengt")
        = .error (.typeError "Cannot read properties of undefined (reading trim)")
      ∧ hoursEntry asciiCase (utf16 "Monday: STENGT") = .ok none := by
  decide

/-! ## The selectors of the review rendering -/

theorem displayReviews_without_profilePhoto (data : PlaceDetails)
    (selectors : ReviewSelectors) (hsel : selectors.profilePhoto = none)
    (hphotos : photos data ≠ []) :
    (displayReviews data selectors).thrown
        = some (.typeError "selectors.profilePhoto is not a function")
      ∧ (displayReviews data selectors).page.photos = [] := by
  unfold displayReviews
  cases hp : photos data with
  | nil => exact absurd hp hphotos
  | cons review rest => simp [photoLoop, hsel]

/-- C9, the failing input: with `reviewsEnabled` and no `reviewSelectors`, and a payload
whose one review has a photo, `loadGoogleData` takes the default selectors for the stars
bar, the score and the text wrapper, and then throws a TypeError at the call
`selectors.profilePhoto(index + 1)`: no photo is written. -/
theorem loadGoogleData_default_selectors_throw :
    loadGoogleData asciiCase ⟨fun _ => true, fun _ => true⟩ (utf16 "ChIJ_cenv4TZFkYRGElooLAOVOE")
        ⟨false, none, true, none, false, none⟩
        ⟨some 4, some 12, some [⟨some (utf16 "Ann"), some (utf16 "https://img/ann.png")⟩], none⟩
      = ⟨⟨none,
          some
            { starsBarSelector := utf16 "[hero-reviews=\"stars-bar\"]"
              starsBarWidth := 80
              scoreSelector := utf16 "[hero-reviews=\"score\"]"
              scoreText := utf16 "4"
              textWrapperSelector := utf16 "[hero-reviews=\"text-wrapper\"]"
              href := utf16
                "https://www.google.com/maps/search/?api=1&query=Google&query_place_id=undefined"
              target := utf16 "_blank"
              photos := [] },
          none⟩,
        some (.typeError "selectors.profilePhoto is not a function")⟩ := by
  decide!

/-! ## The combined script against the stand-alone review script -/

theorem displayReviews_agrees_except_href (placeId : JSString) (data : PlaceDetails)
    (selectors : ReviewSelectors) :
    (displayReviews data selectors).thrown = (loadGoogleReviews placeId selectors data).thrown
      ∧ (displayReviews data selectors).page
          = { (loadGoogleReviews placeId selectors data).page with
              href := (displayReviews data selectors).page.href } :=
  ⟨rfl, rfl⟩

theorem displayReviews_href (data : PlaceDetails) (selectors : ReviewSelectors)
    (hlink : selectors.reviewsLink = none) (hid : selectors.placeId = none) :
    (displayReviews data selectors).page.href
      = utf16 "https://www.google.com/maps/search/?api=1&query=Google&query_place_id=undefined" := by
  unfold displayReviews
  simp only [hlink, hid, truthy, Bool.false_eq_true, if_false]
  decide

/-- C10, the failing input: with selectors that supply `starsBar`, `score`, `textWrapper` and
`profilePhoto` but neither `reviewsLink` nor `placeId`, `loadGoogleData` links to
`query_place_id=undefined`, while `loadGoogleReviews` links to the place id it was called
with; the rest of the two renderings is the same. -/
theorem loadGoogleData_link_differs :
    ((loadGoogleData asciiCase ⟨fun _ => true, fun _ => true⟩ (utf16 "ChIJ_cenv4TZFkYRGElooLAOVOE")
        ⟨false, none, true,
          some ⟨some (utf16 ".stars"), some (utf16 ".score"), some (utf16 ".link"), none, none,
            some fun k => utf16 ".photo-" ++ natToString k⟩,
          false, none⟩
        ⟨some 4.5, some 12, some [⟨some (utf16 "Ann"), some (utf16 "https://img/ann.png")⟩],
          none⟩).page.reviews.map fun r => r.href)
      = some (utf16
          "https://www.google.com/maps/search/?api=1&query=Google&query_place_id=undefined")
    ∧ (loadGoogleReviews (utf16 "ChIJ_cenv4TZFkYRGElooLAOVOE")
        ⟨some (utf16 ".stars"), some (utf16 ".score"), some (utf16 ".link"), none, none,
          some fun k => utf16 ".photo-" ++ natToString k⟩
        ⟨some 4.5, some 12, some [⟨some (utf16 "Ann"), some (utf16 "https://img/ann.png")⟩],
          none⟩).page.href
      = utf16 ("https://www.google.com/maps/search/?api=1&query=Google"
          ++ "&query_place_id=ChIJ_cenv4TZFkYRGElooLAOVOE")
    ∧ (loadGoogleData asciiCase ⟨fun _ => true, fun _ => true⟩ (utf16 "ChIJ_cenv4TZFkYRGElooLAOVOE")
        ⟨false, none, true,
          some ⟨some (utf16 ".stars"), some (utf16 ".score"), some (utf16 ".link"), none, none,
            some fun k => utf16 ".photo-" ++ natToString k⟩,
          false, none⟩
        ⟨some 4.5, some 12, some [⟨some (utf16 "Ann"), some (utf16 "https://img/ann.png")⟩],
          none⟩).page.reviews
      ≠ some (loadGoogleReviews (utf16 "ChIJ_cenv4TZFkYRGElooLAOVOE")
        ⟨some (utf16 ".stars"), some (utf16 ".score"), some (utf16 ".link"), none, none,
          some fun k => utf16 ".photo-" ++ natToString k⟩
        ⟨some 4.5, some 12, some [⟨some (utf16 "Ann"), some (utf16 "https://img/ann.png")⟩],
          none⟩).page := by
  decide!

end Kundeportal
